import Mathlib

/-!
# PetPlus — verification of the data layer

Shallow embedding of the PetPlus data layer, which exists in two parallel
variants: a React Native/TypeScript one (`src/store/PetStore.ts` plus the
screens that mutate state, notably `TodayScreen.toggleTask` and
`PetListScreen.handleDelete`) and a SwiftUI one
(`PetPlus/Models/PetStore.swift`).

Modelling conventions:
* Identifiers (`Pet.id`, `CareTask.id`, `CareTask.petId`) are `String`s.
  The Swift variant uses `UUID` values; since every operation only compares
  identifiers for equality, both variants are embedded over the same
  `String`-identified record types.
* Timestamps are integers (milliseconds). The TypeScript source stores an
  ISO-8601 string produced from the millisecond clock and the Swift source
  a `Date`; both are order- and day-faithful images of the clock value, so
  `CareTask.date : Int` stands for either. Local civil time is modelled as
  a fixed offset `tz` (milliseconds) added to the timestamp; a local
  calendar day is a block of 86400000 milliseconds of offset time, so
  `localDay` is a floor division. This is what both
  `new Date(x).toDateString()` comparison and `Calendar.isDateInToday`
  compute on a day without a UTC-offset transition.
* `AsyncStorage` is a map from keys to optionally-present stored strings.
  A stored string either parses as JSON (`TsBlob.json v`, standing for any
  string whose `JSON.parse` yields the structural value `v`) or is a
  non-empty string that makes `JSON.parse` throw (`TsBlob.notJson s`).
  A thrown parse error is modelled as `Except.error ()`.
* `UserDefaults` is a map from keys to optionally-present `Data` blobs.
  `Codable` round-trips, and `JSONDecoder` rejects data of the wrong
  shape, so a blob is modelled as either the encoding of a pet array, the
  encoding of a task array, or unrelated bytes that decode as neither.
* Calls to `Date.now()` / `Math.random()` are modelled by passing the
  observed millisecond clock value and the random base-36 suffix (the
  digits of `Math.random().toString(36).slice(2)`) as explicit arguments.
-/

/-- `Pet` record (`PetStore.ts`, `interface Pet`): id, name, type, age. -/
structure Pet where
  id : String
  name : String
  type : String
  age : Int
deriving Repr, DecidableEq

/-- `CareTask` record (`PetStore.ts`, `interface CareTask`): id, petId,
careType, note, creation date, completion flag. -/
structure CareTask where
  id : String
  petId : String
  careType : String
  note : String
  date : Int
  isCompleted : Bool
deriving Repr, DecidableEq

/-- Structural JSON values, the image of `JSON.parse` on plain data. -/
inductive Json where
  | null
  | bool (b : Bool)
  | num (n : Int)
  | str (s : String)
  | arr (elems : List Json)
  | obj (fields : List (String × Json))
deriving Repr

/-- One stored `AsyncStorage` string: either it parses as the JSON value
`v`, or it is a non-empty string on which `JSON.parse` throws. -/
inductive TsBlob where
  | json (v : Json)
  | notJson (s : String)
deriving Repr

/-- The `AsyncStorage` key-value store: keys to optionally-present strings. -/
def TsStore : Type := String → Option TsBlob

/-- `PETS_KEY` (`PetStore.ts` line 69). -/
def PETS_KEY : String := "pets"

/-- `TASKS_KEY` (`PetStore.ts` line 70). -/
def TASKS_KEY : String := "careTasks"

/-- `AsyncStorage.setItem key value`: replace the blob stored under `key`. -/
def tsSetItem (key : String) (b : TsBlob) (s : TsStore) : TsStore :=
  fun k => if k = key then some b else s k

/-- The JSON object `JSON.stringify` produces for one `Pet`
(insertion-ordered keys id, name, type, age). -/
def encodePet (p : Pet) : Json :=
  .obj [("id", .str p.id), ("name", .str p.name),
        ("type", .str p.type), ("age", .num p.age)]

/-- The JSON array `JSON.stringify(pets)` produces. -/
def encodePets (pets : List Pet) : Json :=
  .arr (pets.map encodePet)

/-- `savePets` (`PetStore.ts` lines 134-136): stringify the whole array and
store it under `PETS_KEY`, replacing any prior value. -/
def savePets (pets : List Pet) (s : TsStore) : TsStore :=
  tsSetItem PETS_KEY (.json (encodePets pets)) s

/-- `loadPets` (`PetStore.ts` lines 124-127): read the blob under
`PETS_KEY`; absent data gives `[]`, otherwise the result of `JSON.parse`
is returned as-is (no shape validation); a failing parse throws. -/
def loadPets (s : TsStore) : Except Unit Json :=
  match s PETS_KEY with
  | none => .ok (.arr [])
  | some (.json v) => .ok v
  | some (.notJson _) => .error ()

/-- `loadTasks` (`PetStore.ts` lines 156-159): same as `loadPets` for the
`TASKS_KEY` collection. -/
def loadTasks (s : TsStore) : Except Unit Json :=
  match s TASKS_KEY with
  | none => .ok (.arr [])
  | some (.json v) => .ok v
  | some (.notJson _) => .error ()

/-- Read one `Pet` back out of its JSON encoding. This is the spec side of
the round-trip claim ("reproduces the identical sequence, field-for-field"):
it inverts `encodePet`, showing the stored JSON determines the record. -/
def decodePet : Json → Option Pet
  | .obj [("id", .str i), ("name", .str n), ("type", .str t), ("age", .num a)] =>
      some { id := i, name := n, type := t, age := a }
  | _ => none

/-- Decode each element of a JSON array of pets. -/
def decodePetList : List Json → Option (List Pet)
  | [] => some []
  | j :: rest =>
    match decodePet j, decodePetList rest with
    | some p, some ps => some (p :: ps)
    | _, _ => none

/-- Read a whole pet sequence back out of its JSON encoding. -/
def decodePets : Json → Option (List Pet)
  | .arr elems => decodePetList elems
  | _ => none

/-- The base-36 digit characters `0-9a-z` used by `Number.toString(36)`. -/
def digitChar36 (d : Nat) : Char :=
  if d < 10 then Char.ofNat (48 + d) else Char.ofNat (87 + d)

/-- Most-significant-first base-36 digits of `n`; the first argument is
fuel (`n` itself suffices, since the value shrinks by a factor 36). -/
def toBase36Core : Nat → Nat → List Char
  | 0, _ => []
  | fuel + 1, n => if n = 0 then [] else toBase36Core fuel (n / 36) ++ [digitChar36 (n % 36)]

/-- `n.toString(36)` for a non-negative integer `n`. -/
def toBase36 (n : Nat) : String :=
  if n = 0 then "0" else ⟨toBase36Core n n⟩

/-- `generateId` (`PetStore.ts` lines 105-107):
`Date.now().toString(36) + Math.random().toString(36).slice(2)`, with the
clock reading and the random suffix passed explicitly. -/
def generateId (nowMs : Nat) (rand36 : String) : String :=
  toBase36 nowMs ++ rand36

/-- `createPet` (`PetStore.ts` lines 144-146): a fresh id, all other fields
copied verbatim. -/
def createPet (nowMs : Nat) (rand36 : String) (name : String) (type : String)
    (age : Int) : Pet :=
  { id := generateId nowMs rand36, name := name, type := type, age := age }

/-- `createTask` (`PetStore.ts` lines 175-184): a fresh id, the inputs
copied verbatim, the current clock value as creation date, `isCompleted`
false. -/
def createTask (nowMs : Nat) (rand36 : String) (petId : String)
    (careType : String) (note : String) : CareTask :=
  { id := generateId nowMs rand36, petId := petId, careType := careType,
    note := note, date := (nowMs : Int), isCompleted := false }

/-- The local calendar day containing instant `t`, for a local time that is
UTC shifted by `tz` milliseconds: floor of the offset time in days. -/
def localDay (tz t : Int) : Int :=
  (t + tz) / 86400000

/-- `filterTodayTasks` (`PetStore.ts` lines 194-197): keep exactly the
tasks whose date falls on the same local calendar day as `nowMs`
(the `toDateString()` comparison ignores the time of day). -/
def filterTodayTasks (tz nowMs : Int) (tasks : List CareTask) : List CareTask :=
  tasks.filter fun task => localDay tz task.date == localDay tz nowMs

/-- `{ ...t, isCompleted: !t.isCompleted }`, also
`tasks[index].isCompleted.toggle()`: flip the flag, keep every other field. -/
def flipCompleted (t : CareTask) : CareTask :=
  { t with isCompleted := !t.isCompleted }

/-- `toggleTask` (`TodayScreen.tsx` lines 35-42): map over the whole
collection, flipping `isCompleted` on every task whose id matches. -/
def toggleTask (tasks : List CareTask) (taskId : String) : List CareTask :=
  tasks.map fun t => if t.id == taskId then flipCompleted t else t

/-- The in-memory app state a screen holds: the pets and tasks collections. -/
structure AppState where
  pets : List Pet
  tasks : List CareTask
deriving Repr, DecidableEq

/-- `handleDelete` (`PetListScreen.tsx` lines 31-44): drop the pet with the
matching id from the pets collection; the tasks collection is not touched. -/
def handleDelete (s : AppState) (pet : Pet) : AppState :=
  { s with pets := s.pets.filter fun p => !(p.id == pet.id) }

/-- Swift's `Array.firstIndex(where:)`: index of the first element
satisfying `p`, if any. -/
def firstIndex (p : CareTask → Bool) : List CareTask → Option Nat
  | [] => none
  | t :: ts => if p t then some 0 else (firstIndex p ts).map (· + 1)

/-- In-place update `tasks[index].isCompleted.toggle()` at a given index. -/
def modifyAt (f : CareTask → CareTask) : List CareTask → Nat → List CareTask
  | [], _ => []
  | t :: ts, 0 => f t :: ts
  | t :: ts, i + 1 => t :: modifyAt f ts i

namespace PetStore

/-- `PetStore.toggleTask` (`PetStore.swift` lines 35-39): find the first
index whose id matches and flip `isCompleted` there; no match leaves the
collection unchanged. -/
def toggleTask (tasks : List CareTask) (taskId : String) : List CareTask :=
  match firstIndex (fun t => t.id == taskId) tasks with
  | some index => modifyAt flipCompleted tasks index
  | none => tasks

/-- `PetStore.deletePet` (`PetStore.swift` lines 24-27): remove every task
whose `petId` matches the deleted pet's id, then remove the pet itself. -/
def deletePet (s : AppState) (pet : Pet) : AppState :=
  { tasks := s.tasks.filter fun t => !(t.petId == pet.id),
    pets := s.pets.filter fun p => !(p.id == pet.id) }

/-- `Calendar.current.isDateInToday`: `t` falls on the same local calendar
day as the current instant `nowMs`. -/
def isDateInToday (tz nowMs t : Int) : Bool :=
  localDay tz t == localDay tz nowMs

/-- `PetStore.todayTasks` (`PetStore.swift` lines 41-43): the tasks whose
date is in today. -/
def todayTasks (tz nowMs : Int) (tasks : List CareTask) : List CareTask :=
  tasks.filter fun t => isDateInToday tz nowMs t.date

/-- One `Data` blob stored in `UserDefaults`: the `JSONEncoder` image of a
pet array or of a task array, or bytes that `JSONDecoder` decodes as
neither (`rawData`). -/
inductive SwiftData where
  | petsData (pets : List Pet)
  | tasksData (tasks : List CareTask)
  | rawData (bytes : Nat)
deriving Repr

/-- The `UserDefaults` store: keys to optionally-present `Data` blobs. -/
def UserDefaultsStore : Type := String → Option SwiftData

/-- `JSONDecoder().decode([Pet].self, from:)` as a partial function. -/
def decodePetArray : SwiftData → Option (List Pet)
  | .petsData ps => some ps
  | _ => none

/-- `JSONDecoder().decode([CareTask].self, from:)` as a partial function. -/
def decodeTaskArray : SwiftData → Option (List CareTask)
  | .tasksData ts => some ts
  | _ => none

/-- `PetStore.loadPets` (`PetStore.swift` lines 57-62): if data exists
under `"pets"` and decodes as a pet array, that array becomes the pets
collection; otherwise the collection keeps its previous value (`[]` when
called from `init`). -/
def loadPets (prev : List Pet) (ud : UserDefaultsStore) : List Pet :=
  match ud "pets" with
  | some d =>
    match decodePetArray d with
    | some decoded => decoded
    | none => prev
  | none => prev

/-- `PetStore.loadTasks` (`PetStore.swift` lines 70-75): same as
`loadPets` for the `"careTasks"` key. -/
def loadTasks (prev : List CareTask) (ud : UserDefaultsStore) : List CareTask :=
  match ud "careTasks" with
  | some d =>
    match decodeTaskArray d with
    | some decoded => decoded
    | none => prev
  | none => prev

end PetStore

/-! ## Lemmas about the two toggle variants -/

theorem flipCompleted_flipCompleted (t : CareTask) :
    flipCompleted (flipCompleted t) = t := by
  cases t
  simp [flipCompleted]

theorem toggleTask_eq_self (tasks : List CareTask) (taskId : String)
    (h : ∀ t ∈ tasks, t.id ≠ taskId) : toggleTask tasks taskId = tasks := by
  unfold toggleTask
  have hid : ∀ t ∈ tasks, (if t.id == taskId then flipCompleted t else t) = t := by
    intro t ht
    have : (t.id == taskId) = false := by simpa using h t ht
    simp [this]
  rw [List.map_congr_left hid]
  exact List.map_id tasks

theorem firstIndex_eq_none (p : CareTask → Bool) (l : List CareTask)
    (h : ∀ t ∈ l, p t = false) : firstIndex p l = none := by
  induction l with
  | nil => rfl
  | cons t ts ih =>
    simp [firstIndex, h t (by simp), ih fun u hu => h u (by simp [hu])]

theorem toggle_first_eq_self (tasks : List CareTask) (taskId : String)
    (h : ∀ t ∈ tasks, t.id ≠ taskId) : PetStore.toggleTask tasks taskId = tasks := by
  unfold PetStore.toggleTask
  rw [firstIndex_eq_none _ _ fun t ht => by simpa using h t ht]

theorem PetStore.toggleTask_cons (t : CareTask) (ts : List CareTask) (taskId : String) :
    PetStore.toggleTask (t :: ts) taskId =
      if t.id == taskId then flipCompleted t :: ts
      else t :: PetStore.toggleTask ts taskId := by
  cases h : t.id == taskId with
  | true => simp [PetStore.toggleTask, firstIndex, h, modifyAt]
  | false =>
    simp only [PetStore.toggleTask, firstIndex, h, Bool.false_eq_true, if_false]
    cases hfi : firstIndex (fun u => u.id == taskId) ts with
    | none => simp
    | some i => simp [modifyAt]

theorem toggle_variants_eq_of_nodup (tasks : List CareTask) (taskId : String)
    (h : (tasks.map CareTask.id).Nodup) :
    toggleTask tasks taskId = PetStore.toggleTask tasks taskId := by
  induction tasks with
  | nil => rfl
  | cons t ts ih =>
    rw [List.map_cons, List.nodup_cons] at h
    obtain ⟨hnotin, hnd⟩ := h
    rw [PetStore.toggleTask_cons]
    cases ht : t.id == taskId with
    | true =>
      have htid : t.id = taskId := by simpa using ht
      simp only [toggleTask, List.map_cons, ht, if_true]
      congr 1
      refine toggleTask_eq_self ts taskId fun u hu heq => hnotin ?_
      rw [List.mem_map]
      exact ⟨u, hu, by rw [heq, htid]⟩
    | false =>
      simp only [toggleTask, List.map_cons, ht, Bool.false_eq_true, if_false]
      rw [← ih hnd]
      rfl

/-! ## Concrete sample data used by witnesses -/

/-- A sample task with id `a`. -/
def taskA : CareTask :=
  { id := "a", petId := "p1", careType := "feeding", note := "2 cups",
    date := 1000, isCompleted := false }

/-- A sample task with id `b`. -/
def taskB : CareTask :=
  { id := "b", petId := "p1", careType := "walk", note := "",
    date := 2000, isCompleted := true }

/-- A sample task with id `c`. -/
def taskC : CareTask :=
  { id := "c", petId := "p2", careType := "medication", note := "",
    date := 3000, isCompleted := false }

/-- C1: toggling produces a collection of the same length whose entry at
every position is unchanged unless its id matches, in which case only the
`isCompleted` flag is flipped; an identifier matching no task leaves the
collection unchanged (for the first-index Swift variant as well, which
agrees with the map-based variant whenever ids are distinct). -/
theorem toggle_contract (tasks : List CareTask) (taskId : String) :
    ((toggleTask tasks taskId).length = tasks.length
      ∧ ∀ i : Nat, (toggleTask tasks taskId)[i]? =
          Option.map (fun t => if t.id = taskId then flipCompleted t else t) tasks[i]?)
    ∧ (∀ t : CareTask, (flipCompleted t).id = t.id ∧ (flipCompleted t).petId = t.petId
        ∧ (flipCompleted t).careType = t.careType ∧ (flipCompleted t).note = t.note
        ∧ (flipCompleted t).date = t.date ∧ (flipCompleted t).isCompleted = !t.isCompleted)
    ∧ ((∀ t ∈ tasks, t.id ≠ taskId) → toggleTask tasks taskId = tasks)
    ∧ ((∀ t ∈ tasks, t.id ≠ taskId) → PetStore.toggleTask tasks taskId = tasks)
    ∧ ((tasks.map CareTask.id).Nodup →
        PetStore.toggleTask tasks taskId = toggleTask tasks taskId) := by
  refine ⟨⟨by simp [toggleTask], fun i => ?_⟩, fun t => ⟨rfl, rfl, rfl, rfl, rfl, rfl⟩,
    toggleTask_eq_self tasks taskId, toggle_first_eq_self tasks taskId,
    fun h => (toggle_variants_eq_of_nodup tasks taskId h).symm⟩
  rw [toggleTask, List.getElem?_map]
  congr 1
  funext t
  by_cases h : t.id = taskId
  · simp [h]
  · simp [h]

/-- Witness for C1 at the three-task sample collection: toggling `b` flips
exactly the middle entry, and an unknown id is a no-op in both variants. -/
theorem toggle_contract_witness :
    ((toggleTask [taskA, taskB, taskC] taskB.id)[1]? =
        Option.map (fun t => if t.id = taskB.id then flipCompleted t else t)
          [taskA, taskB, taskC][1]?)
    ∧ toggleTask [taskA, taskB, taskC] "zz" = [taskA, taskB, taskC]
    ∧ PetStore.toggleTask [taskA, taskB, taskC] "zz" = [taskA, taskB, taskC]
    ∧ PetStore.toggleTask [taskA, taskB, taskC] taskB.id =
        toggleTask [taskA, taskB, taskC] taskB.id :=
  ⟨(toggle_contract [taskA, taskB, taskC] taskB.id).1.2 1,
    (toggle_contract [taskA, taskB, taskC] "zz").2.2.1 (by decide),
    (toggle_contract [taskA, taskB, taskC] "zz").2.2.2.1 (by decide),
    (toggle_contract [taskA, taskB, taskC] taskB.id).2.2.2.2 (by decide)⟩

/-- C9: on a collection with pairwise-distinct task ids the map-based
React Native toggle and the first-index Swift toggle produce equal
resulting collections. -/
theorem toggle_variants_agree (tasks : List CareTask) (taskId : String)
    (h : (tasks.map CareTask.id).Nodup) :
    toggleTask tasks taskId = PetStore.toggleTask tasks taskId :=
  toggle_variants_eq_of_nodup tasks taskId h

/-- Witness for C9 at a concrete distinct-id collection. -/
theorem toggle_variants_agree_witness :
    toggleTask [taskA, taskB, taskC] taskA.id =
      PetStore.toggleTask [taskA, taskB, taskC] taskA.id :=
  toggle_variants_agree [taskA, taskB, taskC] taskA.id (by decide)

/-- C10: toggling the same identifier twice restores the original
collection, in both the map-based and the first-index variant. -/
theorem toggle_involutive (tasks : List CareTask) (taskId : String) :
    toggleTask (toggleTask tasks taskId) taskId = tasks
    ∧ PetStore.toggleTask (PetStore.toggleTask tasks taskId) taskId = tasks := by
  constructor
  · induction tasks with
    | nil => rfl
    | cons t ts ih =>
      simp only [toggleTask, List.map_cons] at ih ⊢
      cases h : t.id == taskId with
      | true =>
        have h2 : ((flipCompleted t).id == taskId) = true := h
        simp only [h, h2, if_true, List.map_cons, flipCompleted_flipCompleted]
        rw [ih]
      | false =>
        simp only [h, Bool.false_eq_true, if_false, List.map_cons]
        rw [ih]
  · induction tasks with
    | nil => rfl
    | cons t ts ih =>
      rw [PetStore.toggleTask_cons]
      cases h : t.id == taskId with
      | true =>
        rw [if_pos rfl, PetStore.toggleTask_cons,
          if_pos (show ((flipCompleted t).id == taskId) = true from h),
          flipCompleted_flipCompleted]
      | false =>
        rw [if_neg (by simp), PetStore.toggleTask_cons, if_neg (by simp [h]), ih]

/-! ## Persistence round-trip and empty-store behavior -/

theorem decodePet_encodePet (p : Pet) : decodePet (encodePet p) = some p := rfl

theorem decodePetList_map_encodePet (X : List Pet) :
    decodePetList (X.map encodePet) = some X := by
  induction X with
  | nil => rfl
  | cons p ps ih => simp [decodePetList, decodePet_encodePet, ih]

/-- C2: saving a pet sequence under the pets key and loading it back
succeeds with exactly the stored JSON array, and that array decodes back to
the identical sequence, field-for-field and in order. -/
theorem savePets_loadPets_roundtrip (X : List Pet) (s : TsStore) :
    loadPets (savePets X s) = Except.ok (encodePets X)
    ∧ decodePets (encodePets X) = some X := by
  constructor
  · simp [loadPets, savePets, tsSetItem]
  · simpa [decodePets, encodePets] using decodePetList_map_encodePet X

/-- C5: loading from a store in which the collection key was never written
returns the empty sequence and does not fail, in all four load operations. -/
theorem load_unwritten_key_empty (s : TsStore) (ud : PetStore.UserDefaultsStore) :
    (s PETS_KEY = none → loadPets s = Except.ok (Json.arr []))
    ∧ (s TASKS_KEY = none → loadTasks s = Except.ok (Json.arr []))
    ∧ (ud "pets" = none → PetStore.loadPets [] ud = [])
    ∧ (ud "careTasks" = none → PetStore.loadTasks [] ud = []) := by
  refine ⟨fun h => ?_, fun h => ?_, fun h => ?_, fun h => ?_⟩
  · simp [loadPets, h]
  · simp [loadTasks, h]
  · simp [PetStore.loadPets, h]
  · simp [PetStore.loadTasks, h]

/-- Witness for C5 at the store with no keys written. -/
theorem load_unwritten_key_empty_witness :
    loadPets (fun _ => none) = Except.ok (Json.arr [])
    ∧ loadTasks (fun _ => none) = Except.ok (Json.arr [])
    ∧ PetStore.loadPets [] (fun _ => none) = []
    ∧ PetStore.loadTasks [] (fun _ => none) = [] :=
  ⟨(load_unwritten_key_empty (fun _ => none) (fun _ => none)).1 rfl,
   (load_unwritten_key_empty (fun _ => none) (fun _ => none)).2.1 rfl,
   (load_unwritten_key_empty (fun _ => none) (fun _ => none)).2.2.1 rfl,
   (load_unwritten_key_empty (fun _ => none) (fun _ => none)).2.2.2 rfl⟩

/-! ## Deleting a pet: divergence between the two variants -/

/-- A sample pet whose id is referenced by `taskA` and `taskB`. -/
def petBuddy : Pet := { id := "p1", name := "Buddy", type := "Dog", age := 3 }

/-- A sample app state with one pet and one task referencing it. -/
def sampleState : AppState := { pets := [petBuddy], tasks := [taskA] }

/-- C4: both variants remove exactly the pets with the deleted pet's id,
but the Swift variant also removes every task whose `petId` matches while
the React Native variant leaves the tasks untouched; hence the two results
differ on any state holding a task that references the deleted pet. -/
theorem deletePet_divergence (s : AppState) (pet : Pet) :
    ((PetStore.deletePet s pet).pets = (handleDelete s pet).pets)
    ∧ (∀ q : Pet, q ∈ (handleDelete s pet).pets ↔ q ∈ s.pets ∧ q.id ≠ pet.id)
    ∧ (∀ t : CareTask, t ∈ (PetStore.deletePet s pet).tasks ↔
        t ∈ s.tasks ∧ t.petId ≠ pet.id)
    ∧ ((handleDelete s pet).tasks = s.tasks)
    ∧ ((∃ t ∈ s.tasks, t.petId = pet.id) →
        (PetStore.deletePet s pet).tasks ≠ (handleDelete s pet).tasks) := by
  refine ⟨rfl, fun q => ?_, fun t => ?_, rfl, fun hex heq => ?_⟩
  · simp [handleDelete, List.mem_filter]
  · simp [PetStore.deletePet, List.mem_filter]
  · obtain ⟨t, ht, hpid⟩ := hex
    have hlt : ((s.tasks.filter fun u => !(u.petId == pet.id)).length < s.tasks.length) :=
      List.length_filter_lt_length_iff_exists.mpr ⟨t, ht, by simp [hpid]⟩
    have hlen := congrArg List.length heq
    have hsame : (PetStore.deletePet s pet).tasks =
        s.tasks.filter fun u => !(u.petId == pet.id) := rfl
    have htriv : (handleDelete s pet).tasks = s.tasks := rfl
    rw [hsame, htriv] at hlen
    omega

/-- Witness for C4 at the sample state: the cascading delete drops the
task referencing the deleted pet, so the two variants disagree there. -/
theorem deletePet_divergence_witness :
    (PetStore.deletePet sampleState petBuddy).tasks ≠
      (handleDelete sampleState petBuddy).tasks :=
  (deletePet_divergence sampleState petBuddy).2.2.2.2 ⟨taskA, by decide, rfl⟩

/-! ## The today-filter -/

/-- The instant at which the local calendar day containing `nowMs` begins. -/
def dayStart (tz nowMs : Int) : Int :=
  localDay tz nowMs * 86400000 - tz

theorem localDay_dayStart_add (tz nowMs k : Int) (h0 : 0 ≤ k) (h1 : k < 86400000) :
    localDay tz (dayStart tz nowMs + k) = localDay tz nowMs := by
  set D := localDay tz nowMs with hD
  show (dayStart tz nowMs + k + tz) / 86400000 = D
  have harg : dayStart tz nowMs + k + tz = k + 86400000 * D := by
    rw [dayStart, ← hD]; ring
  rw [harg, Int.add_mul_ediv_left k D (by norm_num), Int.ediv_eq_zero_of_lt h0 h1,
    zero_add]

theorem localDay_dayStart_sub (tz nowMs k : Int) (h0 : 0 < k) (h1 : k ≤ 86400000) :
    localDay tz (dayStart tz nowMs - k) = localDay tz nowMs - 1 := by
  set D := localDay tz nowMs with hD
  show (dayStart tz nowMs - k + tz) / 86400000 = D - 1
  have harg : dayStart tz nowMs - k + tz = (86400000 - k) + 86400000 * (D - 1) := by
    rw [dayStart, ← hD]; ring
  rw [harg, Int.add_mul_ediv_left _ (D - 1) (by norm_num),
    Int.ediv_eq_zero_of_lt (by omega) (by omega), zero_add]

/-- C3: the today-filter keeps exactly the tasks whose date lies on the
same local calendar day as the fixed current instant; one second after
local midnight and one second before the next local midnight are both
kept, while one second before local midnight (a yesterday date) is
dropped; the Swift `todayTasks` computes the same filter. -/
theorem filterTodayTasks_spec (tz nowMs : Int) (tasks : List CareTask) :
    (∀ t : CareTask, t ∈ filterTodayTasks tz nowMs tasks ↔
        t ∈ tasks ∧ localDay tz t.date = localDay tz nowMs)
    ∧ (∀ t ∈ tasks, t.date = dayStart tz nowMs + 1000 →
        t ∈ filterTodayTasks tz nowMs tasks)
    ∧ (∀ t ∈ tasks, t.date = dayStart tz nowMs + 86399000 →
        t ∈ filterTodayTasks tz nowMs tasks)
    ∧ (∀ t ∈ tasks, t.date = dayStart tz nowMs - 1000 →
        t ∉ filterTodayTasks tz nowMs tasks)
    ∧ PetStore.todayTasks tz nowMs tasks = filterTodayTasks tz nowMs tasks := by
  have hmem : ∀ t : CareTask, t ∈ filterTodayTasks tz nowMs tasks ↔
      t ∈ tasks ∧ localDay tz t.date = localDay tz nowMs := by
    intro t
    simp [filterTodayTasks, List.mem_filter]
  refine ⟨hmem, fun t ht hd => ?_, fun t ht hd => ?_, fun t ht hd hmem2 => ?_, rfl⟩
  · exact (hmem t).mpr ⟨ht, by
      rw [hd]; exact localDay_dayStart_add tz nowMs 1000 (by norm_num) (by norm_num)⟩
  · exact (hmem t).mpr ⟨ht, by
      rw [hd]; exact localDay_dayStart_add tz nowMs 86399000 (by norm_num) (by norm_num)⟩
  · have hday := ((hmem t).mp hmem2).2
    rw [hd, localDay_dayStart_sub tz nowMs 1000 (by norm_num) (by norm_num)] at hday
    omega

/-- A sample task dated one second before the next local midnight
(for `tz = 0`, day zero). -/
def taskLate : CareTask :=
  { id := "d", petId := "p1", careType := "walk", note := "",
    date := 86399000, isCompleted := false }

/-- A sample task dated one second before local midnight of day zero,
i.e. yesterday relative to a noon instant of day zero (`tz = 0`). -/
def taskYesterday : CareTask :=
  { id := "e", petId := "p1", careType := "feeding", note := "",
    date := -1000, isCompleted := false }

/-- Witness for C3 with now at noon of day zero: the 00:00:01 task and the
23:59:59 task are kept, the yesterday task is dropped. -/
theorem filterTodayTasks_spec_witness :
    taskA ∈ filterTodayTasks 0 43200000 [taskA, taskLate, taskYesterday]
    ∧ taskLate ∈ filterTodayTasks 0 43200000 [taskA, taskLate, taskYesterday]
    ∧ taskYesterday ∉ filterTodayTasks 0 43200000 [taskA, taskLate, taskYesterday] :=
  ⟨(filterTodayTasks_spec 0 43200000 [taskA, taskLate, taskYesterday]).2.1
      taskA (by decide) (by decide),
   (filterTodayTasks_spec 0 43200000 [taskA, taskLate, taskYesterday]).2.2.1
      taskLate (by decide) (by decide),
   (filterTodayTasks_spec 0 43200000 [taskA, taskLate, taskYesterday]).2.2.2.1
      taskYesterday (by decide) (by decide)⟩

/-! ## Identifier generation and the constructor helpers -/

theorem toBase36_ne_empty (n : Nat) : toBase36 n ≠ "" := by
  unfold toBase36
  by_cases h : n = 0
  · simp [h]
  · rw [if_neg h]
    intro hcontra
    have hdata : toBase36Core n n = [] := congrArg String.data hcontra
    obtain ⟨m, rfl⟩ := Nat.exists_eq_succ_of_ne_zero h
    rw [toBase36Core, if_neg h] at hdata
    exact absurd (List.append_eq_nil.mp hdata).2 (by simp)

theorem generateId_ne_empty (nowMs : Nat) (rand36 : String) :
    generateId nowMs rand36 ≠ "" := by
  intro h
  apply toBase36_ne_empty nowMs
  have hdata : (toBase36 nowMs).data ++ rand36.data = [] := by
    rw [← String.data_append]
    exact congrArg String.data h
  exact String.ext (List.append_eq_nil.mp hdata).1

theorem generateId_inj_rand (nowMs : Nat) (r1 r2 : String) (h : r1 ≠ r2) :
    generateId nowMs r1 ≠ generateId nowMs r2 := by
  intro he
  apply h
  have hdata : (toBase36 nowMs).data ++ r1.data = (toBase36 nowMs).data ++ r2.data := by
    rw [← String.data_append, ← String.data_append]
    exact congrArg String.data he
  exact String.ext (List.append_cancel_left hdata)

/-- Counterexample for C6: two calls with distinct clock readings and
distinct random suffixes produce the very same identifier, so the
identifiers are not unique across repeated calls. -/
theorem createPet_id_collision :
    (createPet 1 "00" "Buddy" "Dog" 3).id = (createPet 36 "0" "Rex" "Cat" 2).id
    ∧ (1 : Nat) ≠ 36 ∧ ("00" : String) ≠ "0" :=
  ⟨by decide, by decide, by decide⟩

/-- C6 (amended): createPet copies name, type, and age verbatim and its
identifier — the concatenation of the base-36 clock reading and the random
suffix — is non-empty; identifiers of calls sharing a clock reading are
distinct whenever their random suffixes differ, but the scheme is not
collision-free across different clock readings. -/
theorem createPet_spec (nowMs : Nat) (rand36 name ty : String) (age : Int) :
    (createPet nowMs rand36 name ty age).name = name
    ∧ (createPet nowMs rand36 name ty age).type = ty
    ∧ (createPet nowMs rand36 name ty age).age = age
    ∧ (createPet nowMs rand36 name ty age).id = generateId nowMs rand36
    ∧ (createPet nowMs rand36 name ty age).id ≠ ""
    ∧ (∀ r1 r2 : String, r1 ≠ r2 → generateId nowMs r1 ≠ generateId nowMs r2) :=
  ⟨rfl, rfl, rfl, rfl, generateId_ne_empty nowMs rand36,
    fun r1 r2 h => generateId_inj_rand nowMs r1 r2 h⟩

/-- Witness for C6 (amended) at a concrete call: the fields come back
verbatim and two same-millisecond calls with different suffixes collide on
nothing. -/
theorem createPet_spec_witness :
    (createPet 5 "x7" "Buddy" "Dog" 3).name = "Buddy"
    ∧ (createPet 5 "x7" "Buddy" "Dog" 3).id ≠ ""
    ∧ generateId 5 "aa" ≠ generateId 5 "ab" :=
  ⟨(createPet_spec 5 "x7" "Buddy" "Dog" 3).1,
   (createPet_spec 5 "x7" "Buddy" "Dog" 3).2.2.2.2.1,
   (createPet_spec 5 "x7" "Buddy" "Dog" 3).2.2.2.2.2 "aa" "ab" (by decide)⟩

/-- C7: createTask copies petId, careType, and note verbatim, starts out
not completed, carries the clock reading at construction as its date, and
has been assigned a (non-empty) identifier. -/
theorem createTask_spec (nowMs : Nat) (rand36 petId careType note : String) :
    (createTask nowMs rand36 petId careType note).petId = petId
    ∧ (createTask nowMs rand36 petId careType note).careType = careType
    ∧ (createTask nowMs rand36 petId careType note).note = note
    ∧ (createTask nowMs rand36 petId careType note).isCompleted = false
    ∧ (createTask nowMs rand36 petId careType note).date = (nowMs : Int)
    ∧ (createTask nowMs rand36 petId careType note).id = generateId nowMs rand36
    ∧ (createTask nowMs rand36 petId careType note).id ≠ "" :=
  ⟨rfl, rfl, rfl, rfl, rfl, rfl, generateId_ne_empty nowMs rand36⟩

/-! ## Malformed stored data -/

/-- Counterexample for C8: with a stored blob under the pets key that is
not valid JSON, the React Native `loadPets` fails with a thrown parse
error instead of returning the empty collection. -/
theorem loadPets_malformed_not_masked :
    loadPets (tsSetItem PETS_KEY (TsBlob.notJson "not json") (fun _ => none)) =
      Except.error ()
    ∧ loadPets (tsSetItem PETS_KEY (TsBlob.notJson "not json") (fun _ => none)) ≠
        Except.ok (Json.arr []) := by
  have h1 : loadPets (tsSetItem PETS_KEY (TsBlob.notJson "not json") (fun _ => none)) =
      Except.error () := by
    simp [loadPets, tsSetItem]
  exact ⟨h1, by rw [h1]; exact fun hcontra => Except.noConfusion hcontra⟩

/-- C8 (amended): only the SwiftUI variant masks malformed data — a blob
that does not decode as the expected array leaves the fresh collection
empty; the React Native variant instead surfaces a thrown parse error for
a blob that is not valid JSON, and returns a valid-JSON blob of any shape
as-is without validation. -/
theorem load_malformed_behavior :
    (∀ (ud : PetStore.UserDefaultsStore) (d : PetStore.SwiftData),
        ud "pets" = some d → PetStore.decodePetArray d = none →
        PetStore.loadPets [] ud = [])
    ∧ (∀ (ud : PetStore.UserDefaultsStore) (d : PetStore.SwiftData),
        ud "careTasks" = some d → PetStore.decodeTaskArray d = none →
        PetStore.loadTasks [] ud = [])
    ∧ (∀ (s : TsStore) (str : String),
        s PETS_KEY = some (TsBlob.notJson str) → loadPets s = Except.error ())
    ∧ (∀ (s : TsStore) (v : Json),
        s PETS_KEY = some (TsBlob.json v) → loadPets s = Except.ok v) := by
  refine ⟨fun ud d h1 h2 => ?_, fun ud d h1 h2 => ?_,
    fun s str h => ?_, fun s v h => ?_⟩
  · simp [PetStore.loadPets, h1, h2]
  · simp [PetStore.loadTasks, h1, h2]
  · simp [loadPets, h]
  · simp [loadPets, h]

/-- Witness for C8 (amended): a raw blob is masked as empty by the Swift
loads, while the React Native load errors on invalid JSON and passes
through valid JSON of the wrong shape. -/
theorem load_malformed_behavior_witness :
    PetStore.loadPets []
        (fun k => if k = PETS_KEY then some (PetStore.SwiftData.rawData 7) else none) = []
    ∧ PetStore.loadTasks []
        (fun k => if k = TASKS_KEY then some (PetStore.SwiftData.rawData 7) else none) = []
    ∧ loadPets (tsSetItem PETS_KEY (TsBlob.notJson "oops") (fun _ => none)) =
        Except.error ()
    ∧ loadPets (tsSetItem PETS_KEY (TsBlob.json (Json.num 42)) (fun _ => none)) =
        Except.ok (Json.num 42) :=
  ⟨(load_malformed_behavior).1
      (fun k => if k = PETS_KEY then some (PetStore.SwiftData.rawData 7) else none)
      (PetStore.SwiftData.rawData 7) (by simp [PETS_KEY]) rfl,
   (load_malformed_behavior).2.1
      (fun k => if k = TASKS_KEY then some (PetStore.SwiftData.rawData 7) else none)
      (PetStore.SwiftData.rawData 7) (by simp [TASKS_KEY]) rfl,
   (load_malformed_behavior).2.2.1
      (tsSetItem PETS_KEY (TsBlob.notJson "oops") (fun _ => none)) "oops"
      (by simp [tsSetItem]),
   (load_malformed_behavior).2.2.2
      (tsSetItem PETS_KEY (TsBlob.json (Json.num 42)) (fun _ => none)) (Json.num 42)
      (by simp [tsSetItem])⟩
